import Mathlib

/-!
Verification of the DankCord reply-parsing engine and event-correlation
cache (`src/DankCord/objects.py`) against its specification.

The Python code is shallowly embedded: reply texts are `String`s (worked
on as `List Char`), the handful of regular expressions used by the source
(`\*\*⏣ [0-9]+\*\*`, `[0-9]+`, `\*\*(.*?)\*\*`, `<(.*?)\>`, `\*\*[0-9]+x`,
`\*\*[0-9]+x .+\*\*`, `\*\*.*\*`, `[0-9]+x`, `(\d+)`) are implemented as
dedicated scanners with Python `re.findall` semantics (leftmost,
non-overlapping, `.` not matching newline, lazy `*?` minimal, greedy
`.*`/`.+` maximal), and Python `try/except` blocks around indexing are
modelled with `Option`.  An extractor that can raise an uncaught exception
(buy/sell/postmemes/cooldown) returns `Option CommandResult`, `none`
standing for the raised exception; the extractors whose bodies swallow all
exceptions (beg/search/common1/crime) are total.

`datetime.now()` is modelled as an explicit rational parameter `now`
(epoch seconds); `round(x, 2)` is modelled by `round2`.  Python's `round`
resolves exact ties to the even digit while Mathlib's `round` rounds them
up; no value in this development sits on a tie, so the two agree on
everything proved here.
-/

namespace DankCord

/-- Maximal runs of decimal digits: `re.findall("[0-9]+", s)` (also used
for `(\d+)`; the inputs at hand contain only ASCII digits).  `acc` holds
the current run, reversed. -/
def digitRunsAux (acc : List Char) : List Char → List (List Char)
  | [] => if acc.isEmpty then [] else [acc.reverse]
  | c :: rest =>
      if c.isDigit then digitRunsAux (c :: acc) rest
      else if acc.isEmpty then digitRunsAux [] rest
      else acc.reverse :: digitRunsAux [] rest

/-- `re.findall("[0-9]+", s)`. -/
def digitRuns (s : List Char) : List (List Char) := digitRunsAux [] s

/-- Python `int` on a string of decimal digits. -/
def digitsToNat (s : List Char) : Nat :=
  s.foldl (fun n c => n * 10 + (c.toNat - '0'.toNat)) 0

/-- Does `hay` start with `needle`? -/
def startsWithL : List Char → List Char → Bool
  | [], _ => true
  | _ :: _, [] => false
  | a :: as, b :: bs => a == b && startsWithL as bs

/-- Python substring containment `needle in hay`. -/
def containsSub (needle : List Char) : List Char → Bool
  | [] => needle.isEmpty
  | c :: rest => startsWithL needle (c :: rest) || containsSub needle rest

/-- Python `s.replace(",", "")`. -/
def stripCommas (s : List Char) : List Char := s.filter (fun c => c ≠ ',')

/-- Python `s.replace(old, "")` for a non-empty `old = o :: os`:
left-to-right, non-overlapping removal of every occurrence.  `fuel` is
consumed once per step while the list shrinks by at least one character
per step, so any `fuel ≥ s.length` computes the full result. -/
def replaceDelAux (o : Char) (os : List Char) : Nat → List Char → List Char
  | 0, s => s
  | _ + 1, [] => []
  | fuel + 1, c :: rest =>
      if startsWithL (o :: os) (c :: rest) then
        replaceDelAux o os fuel ((c :: rest).drop (os.length + 1))
      else c :: replaceDelAux o os fuel rest

/-- Python `s.replace(o :: os, "")`. -/
def replaceDel (o : Char) (os : List Char) (s : List Char) : List Char :=
  replaceDelAux o os s.length s

/-- Python `s.replace("**", "")` (left-to-right, non-overlapping). -/
def removeBold : List Char → List Char
  | '*' :: '*' :: rest => removeBold rest
  | c :: rest => c :: removeBold rest
  | [] => []

/-- Python `s.split(sep)` for a one-character separator: splits at every
occurrence, keeping empty pieces. -/
def pySplit (sep : Char) : List Char → List (List Char)
  | [] => [[]]
  | c :: rest =>
      if c = sep then [] :: pySplit sep rest
      else
        match pySplit sep rest with
        | [] => [[c]]
        | w :: ws => (c :: w) :: ws

/-- Python `" ".join(parts)`. -/
def joinSpace (parts : List (List Char)) : List Char :=
  List.intercalate [' '] parts

/-- Lazy body of `\*\*(.*?)\*\*` starting right after an opening `**`:
the minimal run of non-newline characters followed by `**`.  Returns just
the captured run; the scanner resumes `(cap.length + 2)` characters
later. -/
def takeToBold : List Char → Option (List Char)
  | [] => none
  | c :: rest =>
      if c = '*' ∧ rest.head? = some '*' then some []
      else if c = '\n' then none
      else (takeToBold rest).map (fun a => c :: a)

/-- Scanner for `re.findall("\*\*(.*?)\*\*", s)`: leftmost, lazy,
non-overlapping; `.` does not match a newline.  On a failed match attempt
the scan advances one character, exactly as Python's engine does.  Each
step consumes one unit of fuel and strictly shortens the list, so any
`fuel ≥ s.length` computes the full capture list. -/
def boldCapturesAux : Nat → List Char → List (List Char)
  | 0, _ => []
  | _ + 1, [] => []
  | fuel + 1, c :: rest =>
      if c = '*' ∧ rest.head? = some '*' then
        match takeToBold rest.tail with
        | some cap => cap :: boldCapturesAux fuel (rest.tail.drop (cap.length + 2))
        | none => boldCapturesAux fuel rest
      else boldCapturesAux fuel rest

/-- Captures of `re.findall("\*\*(.*?)\*\*", s)`. -/
def boldCaptures (s : List Char) : List (List Char) :=
  boldCapturesAux s.length s

/-- Lazy body of `<(.*?)\>` after an opening `<`: minimal non-newline run
followed by `>`. -/
def takeToGt : List Char → Option (List Char)
  | [] => none
  | c :: rest =>
      if c = '>' then some []
      else if c = '\n' then none
      else (takeToGt rest).map (fun a => c :: a)

/-- Scanner for `re.findall("<(.*?)\>", s)`, with the same fuel
discipline as `boldCapturesAux`. -/
def angleCapturesAux : Nat → List Char → List (List Char)
  | 0, _ => []
  | _ + 1, [] => []
  | fuel + 1, c :: rest =>
      if c = '<' then
        match takeToGt rest with
        | some cap => cap :: angleCapturesAux fuel (rest.drop (cap.length + 1))
        | none => angleCapturesAux fuel rest
      else angleCapturesAux fuel rest

/-- Captures of `re.findall("<(.*?)\>", s)`. -/
def angleCaptures (s : List Char) : List (List Char) :=
  angleCapturesAux s.length s

/-- Greedy body of `.+\*\*`: the maximal non-empty run of non-newline
characters followed by `**` (backtracking to the last closable `**`). -/
def greedyToBold : List Char → Option (List Char)
  | [] => none
  | c :: rest =>
      if c = '\n' then none
      else
        match greedyToBold rest with
        | some a => some (c :: a)
        | none =>
            match rest with
            | '*' :: '*' :: _ => some [c]
            | _ => none

/-- Greedy body of `.*\*`: the maximal (possibly empty) non-newline run
followed by a single `*`. -/
def greedyToStar : List Char → Option (List Char)
  | [] => none
  | c :: rest =>
      if c = '\n' then none
      else
        match greedyToStar rest with
        | some a => some (c :: a)
        | none => if c = '*' then some [] else none

/-- Match of `\*\*⏣ [0-9]+\*\*` anchored at the head of the list. -/
def boldCoinAt : List Char → Option (List Char)
  | '*' :: '*' :: '⏣' :: ' ' :: rest =>
      let run := rest.takeWhile Char.isDigit
      if run.isEmpty then none
      else
        match rest.dropWhile Char.isDigit with
        | '*' :: '*' :: _ => some ('*' :: '*' :: '⏣' :: ' ' :: (run ++ ['*', '*']))
        | _ => none
  | _ => none

/-- First match of `re.findall("\*\*⏣ [0-9]+\*\*", s)`. -/
def boldCoinFind : List Char → Option (List Char)
  | [] => none
  | c :: rest =>
      match boldCoinAt (c :: rest) with
      | some m => some m
      | none => boldCoinFind rest

/-- Match of `\*\*[0-9]+x` anchored at the head of the list. -/
def boldNxAt : List Char → Option (List Char)
  | '*' :: '*' :: rest =>
      let run := rest.takeWhile Char.isDigit
      if run.isEmpty then none
      else
        match rest.dropWhile Char.isDigit with
        | 'x' :: _ => some ('*' :: '*' :: (run ++ ['x']))
        | _ => none
  | _ => none

/-- First match of `re.findall("\*\*[0-9]+x", s)`. -/
def boldNxFind : List Char → Option (List Char)
  | [] => none
  | c :: rest =>
      match boldNxAt (c :: rest) with
      | some m => some m
      | none => boldNxFind rest

/-- Match of `\*\*[0-9]+x .+\*\*` anchored at the head of the list. -/
def boldNxItemAt : List Char → Option (List Char)
  | '*' :: '*' :: rest =>
      let run := rest.takeWhile Char.isDigit
      if run.isEmpty then none
      else
        match rest.dropWhile Char.isDigit with
        | 'x' :: ' ' :: rest2 =>
            match greedyToBold rest2 with
            | some a => some ('*' :: '*' :: (run ++ ['x', ' '] ++ a ++ ['*', '*']))
            | none => none
        | _ => none
  | _ => none

/-- First match of `re.findall("\*\*[0-9]+x .+\*\*", s)`. -/
def boldNxItemFind : List Char → Option (List Char)
  | [] => none
  | c :: rest =>
      match boldNxItemAt (c :: rest) with
      | some m => some m
      | none => boldNxItemFind rest

/-- Match of `\*\*.*\*` anchored at the head of the list. -/
def boldStarAt : List Char → Option (List Char)
  | '*' :: '*' :: rest => (greedyToStar rest).map (fun a => '*' :: '*' :: (a ++ ['*']))
  | _ => none

/-- First match of `re.findall("\*\*.*\*", s)`. -/
def boldStarFind : List Char → Option (List Char)
  | [] => none
  | c :: rest =>
      match boldStarAt (c :: rest) with
      | some m => some m
      | none => boldStarFind rest

/-- First match of `re.findall("[0-9]+x", s)` (match string includes the
trailing `x`). -/
def digitsXFind : List Char → Option (List Char)
  | [] => none
  | c :: rest =>
      if c.isDigit then
        match rest.dropWhile Char.isDigit with
        | 'x' :: _ => some ((c :: rest.takeWhile Char.isDigit) ++ ['x'])
        | _ => digitsXFind rest
      else digitsXFind rest

/-- Keys that appear in the untyped Python `gain`/`loss` dicts: the
string keys `"coins"` and `"items"`, and the bare integer key used by
`Parser.buy`/`Parser.sell` (`{quantity: item}`). -/
inductive GainKey where
  | coins : GainKey
  | items : GainKey
  | qty : Nat → GainKey
deriving DecidableEq

/-- Values of the Python `gain`/`loss` dicts: an integer coin amount, a
list of `{quantity: name}` one-entry dicts (the name is `none` when the
Python value is `None`), or a bare item-name string. -/
inductive GainVal where
  | num : Nat → GainVal
  | items : List (Nat × Option (List Char)) → GainVal
  | name : List Char → GainVal
deriving DecidableEq

/-- A Python dict as an insertion-ordered association list (keys are
unique in every dict the code builds). -/
abbrev GainMap := List (GainKey × GainVal)

/-- Python `d[k] = v`: update in place if the key exists, else append. -/
def setKey (g : GainMap) (k : GainKey) (v : GainVal) : GainMap :=
  if g.any (fun p => p.1 = k) then
    g.map (fun p => if p.1 = k then (k, v) else p)
  else g ++ [(k, v)]

/-- Python `gain["items"].append({amount: item})`. -/
def appendItem (g : GainMap) (amount : Nat) (item : List Char) : GainMap :=
  g.map (fun p =>
    if p.1 = GainKey.items then
      (p.1,
        match p.2 with
        | GainVal.items l => GainVal.items (l ++ [(amount, some item)])
        | v => v)
    else p)

/-- Python truthiness of an optional integer (`None` and `0` are falsy). -/
def truthyNat : Option Nat → Bool
  | none => false
  | some n => n != 0

/-- Python truthiness of an optional string (`None` and `""` are falsy). -/
def truthyStr : Option (List Char) → Bool
  | none => false
  | some s => !s.isEmpty

/-- `CommandResult`: the structured outcome record.  `gain`/`loss` are
`none` when the Python code passes `None` in their place, `cooldown` is
`none` when absent. -/
structure CommandResult where
  success : Bool
  death : Option Bool
  gain : Option GainMap
  loss : Option GainMap
  cooldown : Option ℚ
deriving DecidableEq

/-- Python `round(q, 2)` (see the module comment about ties). -/
def round2 (q : ℚ) : ℚ := ((round (100 * q) : ℤ) : ℚ) / 100

/-- `CommandResult.__init__`: stores the fields and, when the cooldown
value is truthy (non-`None` and non-zero), rounds it to two decimal
places. -/
def mkCommandResult (success : Bool) (death : Option Bool)
    (gain loss : Option GainMap) (cooldown : Option ℚ) : CommandResult :=
  { success := success, death := death, gain := gain, loss := loss,
    cooldown :=
      match cooldown with
      | none => none
      | some c => if c = 0 then some c else some (round2 c) }

namespace Parser

/-- The coin amount extracted by `beg`/`search`/`crime`:
`int(findall("[0-9]+", findall("\*\*⏣ [0-9]+\*\*", td)[0])[0])`, with the
surrounding `try` turning any `IndexError` into `None`. -/
def coinAmount (td : List Char) : Option Nat :=
  (boldCoinFind td).bind (fun m => ((digitRuns m).get? 0).map digitsToNat)

/-- The emoji-stripping step shared by `beg` (coin branch) and `crime`:
`tempstring = "<" + findall("<(.*?)\>", it)[0] + "> "` followed by
`it.replace(tempstring, "")`; if the item holds no `<...>` span the
`IndexError` is swallowed and the item is left unchanged. -/
def stripEmoji (it : List Char) : List Char :=
  match (angleCaptures it).get? 0 with
  | none => it
  | some cap => replaceDel '<' (cap ++ ['>', ' ']) it

/-- `Parser.beg`.  In the no-coin branch the source assigns
`gained_item = findall("\*\*(.*?)\*\*", temp_desc)[0]` and then executes
`item = item.replace(tempstring, "")` — but `item` is an undefined local
there, so that statement always raises `UnboundLocalError`, which the
bare `except` swallows: the emoji tag is NOT stripped in that branch. -/
def beg (description : String) : CommandResult :=
  let td := stripCommas description.toList
  let gained_coins := coinAmount td
  let gained_item : Option (List Char) :=
    if truthyNat gained_coins then ((boldCaptures td).get? 1).map stripEmoji
    else (boldCaptures td).get? 0
  let gain : GainMap :=
    (if truthyNat gained_coins then [(GainKey.coins, GainVal.num (gained_coins.getD 0))] else [])
      ++ (if truthyStr gained_item then [(GainKey.items, GainVal.items [(1, gained_item)])] else [])
  mkCommandResult (gained_coins.isSome || gained_item.isSome) none (some gain) (some []) none

/-- `Parser.search`.  The `**Nx item**` pair is parsed inside one `try`
block, so the amount can be set while the item lookup still fails (the
item is then `None`); `success` is set to `False` exactly when the
coin-pattern lookup raises. -/
def search (description : String) : CommandResult :=
  let td := stripCommas description.toList
  let pair : Option Nat × Option (List Char) :=
    match boldNxFind td with
    | none => (none, none)
    | some m =>
        let amount := digitsToNat ((removeBold m).filter (fun c => c ≠ 'x'))
        match boldNxItemFind td with
        | none => (some amount, none)
        | some m2 =>
            (some amount, some (joinSpace ((pySplit ' ' (removeBold m2)).drop 2)))
  let item_amount := pair.1
  let item := pair.2
  let gained_coins := coinAmount td
  let gain : GainMap :=
    (if truthyNat gained_coins then [(GainKey.coins, GainVal.num (gained_coins.getD 0))] else [])
      ++ (if truthyNat item_amount then [(GainKey.items, GainVal.items [(item_amount.getD 0, item)])] else [])
  mkCommandResult gained_coins.isSome none (some gain) (some []) none

/-- `Parser.common1` (shared by fish, hunt and dig):
`" ".join(findall("\*\*.*\*", td)[0].replace("**", "").split(" ")[1:])`. -/
def common1 (description : String) : CommandResult :=
  let td := stripCommas description.toList
  let gained_items : Option (List Char) :=
    (boldStarFind td).map (fun m => joinSpace ((pySplit ' ' (removeBold m)).drop 1))
  let gain : GainMap :=
    if truthyStr gained_items then [(GainKey.items, GainVal.items [(1, gained_items)])] else []
  mkCommandResult (boldStarFind td).isSome none (some gain) (some []) none

/-- `Parser.crime`: like `beg`, but the item variable is defined in both
branches, so the emoji strip genuinely runs on whichever bold span was
selected (index 1 when a coin amount was found, index 0 otherwise). -/
def crime (description : String) : CommandResult :=
  let td := stripCommas description.toList
  let gained_coins := coinAmount td
  let item : Option (List Char) :=
    if truthyNat gained_coins then ((boldCaptures td).get? 1).map stripEmoji
    else ((boldCaptures td).get? 0).map stripEmoji
  let gain : GainMap :=
    (if truthyNat gained_coins then [(GainKey.coins, GainVal.num (gained_coins.getD 0))] else [])
      ++ (if truthyStr item then [(GainKey.items, GainVal.items [(1, item)])] else [])
  mkCommandResult (gained_coins.isSome || item.isSome) none (some gain) (some []) none

/-- One iteration of the `postmemes` line loop.  A `⏣` line overwrites
`gain["coins"]`; a line holding `<:` first ensures `gain["items"]` exists,
then parses the leading `Nx` amount (an unparseable line raises an
uncaught `IndexError`, modelled as `none`) and appends
`{amount: " ".join(line.split(" ")[5:])}`. -/
def pmLine (g : GainMap) (i : List Char) : Option GainMap :=
  if containsSub ['⏣'] i then
    match (digitRuns i).get? 0 with
    | none => none
    | some r => some (setKey g GainKey.coins (GainVal.num (digitsToNat r)))
  else if containsSub ['<', ':'] i then
    let g1 :=
      if g.any (fun p => p.1 = GainKey.items) then g
      else g ++ [(GainKey.items, GainVal.items [])]
    match digitsXFind i with
    | none => none
    | some m =>
        some (appendItem g1 (digitsToNat (m.filter (fun c => c ≠ 'x')))
          (joinSpace ((pySplit ' ' i).drop 5)))
  else some g

/-- The `postmemes` line loop; `none` models an uncaught exception. -/
def pmLoop (g : GainMap) : List (List Char) → Option GainMap
  | [] => some g
  | i :: rest =>
      match pmLine g i with
      | none => none
      | some g2 => pmLoop g2 rest

/-- `Parser.postmemes`.  Note that the line-trimming step looks for the
exact line `"**You Received:**"`, while the success test is the substring
check `"**You Received" in description` — without the colon and on the
original (not comma-stripped) text. -/
def postmemes (description : String) : Option CommandResult :=
  let parsed0 := (pySplit '\n' (stripCommas description.toList)).drop 3
  let parsed :=
    match parsed0.findIdx? (fun l => l = "**You Received:**".toList) with
    | some idx => parsed0.drop idx
    | none => parsed0
  if containsSub "**You Received".toList description.toList then
    match pmLoop [] parsed with
    | none => none
    | some gain => some (mkCommandResult true none (some gain) (some []) none)
  else some (mkCommandResult false none (some []) (some []) none)

/-- `Parser.buy`.  On the confirmation path the price is read from the
SECOND bold-span match (`findall(regex[0], temp_desc)[1]`); a missing
span or digit raises an uncaught `IndexError`, modelled as `none`.  The
miss path passes `None` for both gain and loss. -/
def buy (description : String) (item : String) (quantity : Nat) : Option CommandResult :=
  if containsSub "bought".toList description.toList
      && containsSub "and paid".toList description.toList then
    let td := stripCommas description.toList
    match (boldCaptures td).get? 1 with
    | none => none
    | some s =>
        match (digitRuns s).get? 0 with
        | none => none
        | some r =>
            some (mkCommandResult true none
              (some [(GainKey.qty quantity, GainVal.name item.toList)])
              (some [(GainKey.coins, GainVal.num (digitsToNat r))]) none)
  else some (mkCommandResult false none none none none)

/-- `Parser.sell`: like `buy` with the "sold"/"and got paid" phrases, but
the price comes from the FIRST bold-span match
(`findall(regex[0], temp_desc)[0]`). -/
def sell (description : String) (item : String) (quantity : Nat) : Option CommandResult :=
  if containsSub "sold".toList description.toList
      && containsSub "and got paid".toList description.toList then
    let td := stripCommas description.toList
    match (boldCaptures td).get? 0 with
    | none => none
    | some s =>
        match (digitRuns s).get? 0 with
        | none => none
        | some r =>
            some (mkCommandResult true none
              (some [(GainKey.coins, GainVal.num (digitsToNat r))])
              (some [(GainKey.qty quantity, GainVal.name item.toList)]) none)
  else some (mkCommandResult false none none none none)

/-- The unix timestamp `Parser.cooldown` extracts:
`int(findall("(\d+)", findall("<(.*?)\>", description)[0])[0])` — the
first digit run inside the first `<...>` span; `none` models the
uncaught `IndexError` when no span is present. -/
def cooldownTs (description : String) : Option Nat :=
  ((angleCaptures description.toList).get? 0).bind
    (fun cap => ((digitRuns cap).get? 0).map digitsToNat)

/-- `Parser.cooldown`, with `datetime.now()` passed explicitly as `now`
(epoch seconds): `difference = (time - datetime.now()).total_seconds()`,
handed to the `CommandResult` constructor, which rounds it to two decimal
places when it is non-zero. -/
def cooldown (description : String) (now : ℚ) : Option CommandResult :=
  match cooldownTs description with
  | none => none
  | some ts =>
      some (mkCommandResult false none (some []) (some []) (some ((ts : ℚ) - now)))

end Parser

/-- A `CommandResult` actually produced by the parsing engine: the value
of some extractor on some input (for the fallible extractors, a run that
did not raise). -/
def EngineOutput (r : CommandResult) : Prop :=
  (∃ d, Parser.beg d = r) ∨ (∃ d, Parser.search d = r) ∨
    (∃ d, Parser.common1 d = r) ∨ (∃ d, Parser.crime d = r) ∨
    (∃ d, Parser.postmemes d = some r) ∨
    (∃ d i q, Parser.buy d i q = some r) ∨
    (∃ d i q, Parser.sell d i q = some r) ∨
    (∃ d now, Parser.cooldown d now = some r)

/-- The event-correlation cache (`Cache.__init__`): message-update
payloads and raw fragments are kept as opaque strings, message ids as
naturals. -/
structure Cache where
  nonce_message_map : List (String × Nat)
  interaction_create : List String
  interaction_success : List String
  raw_message_updates : List String
  message_create : List (String × String)
  message_updates : List (Nat × String)
deriving DecidableEq

/-- Python `d[k]` / `k in d` support: first binding of `k`. -/
def lookupKey {κ β : Type} [DecidableEq κ] (k : κ) (m : List (κ × β)) : Option β :=
  (m.find? (fun p => p.1 = k)).map (fun p => p.2)

/-- Python `del d[k]` (keys are unique in every dict the code builds). -/
def eraseKey {κ β : Type} [DecidableEq κ] (k : κ) (m : List (κ × β)) : List (κ × β) :=
  m.filter (fun p => p.1 ≠ k)

/-- Python `list.remove(x)`: drop the first occurrence. -/
def removeFirst (x : String) : List String → List String
  | [] => []
  | y :: rest => if y = x then rest else y :: removeFirst x rest

/-- `Cache.clear`: sequentially drops the nonce from every per-token
collection (and the mapped message id from `message_updates`), then
unconditionally resets the shared `raw_message_updates` scratch list. -/
def Cache.clear (c : Cache) (nonce : String) : Cache :=
  let c1 :=
    match lookupKey nonce c.nonce_message_map with
    | some relevant_id =>
        { c with
          nonce_message_map := eraseKey nonce c.nonce_message_map,
          message_updates :=
            if (lookupKey relevant_id c.message_updates).isSome then
              eraseKey relevant_id c.message_updates
            else c.message_updates }
    | none => c
  let c2 :=
    if nonce ∈ c1.interaction_create then
      { c1 with interaction_create := removeFirst nonce c1.interaction_create }
    else c1
  let c3 :=
    if nonce ∈ c2.interaction_success then
      { c2 with interaction_success := removeFirst nonce c2.interaction_success }
    else c2
  let c4 :=
    if (lookupKey nonce c3.message_create).isSome then
      { c3 with message_create := eraseKey nonce c3.message_create }
    else c3
  { c4 with raw_message_updates := [] }

/-! ### Helper lemmas -/

theorem mkCommandResult_success (s : Bool) (dth : Option Bool) (g l : Option GainMap)
    (c : Option ℚ) : (mkCommandResult s dth g l c).success = s := rfl

theorem mkCommandResult_gain (s : Bool) (dth : Option Bool) (g l : Option GainMap)
    (c : Option ℚ) : (mkCommandResult s dth g l c).gain = g := rfl

theorem mkCommandResult_cooldown_none (s : Bool) (dth : Option Bool) (g l : Option GainMap) :
    (mkCommandResult s dth g l none).cooldown = none := rfl

theorem round2_zero : round2 0 = 0 := by norm_num [round2, round_eq]

theorem mkCommandResult_cooldown_some (s : Bool) (dth : Option Bool) (g l : Option GainMap)
    (c : ℚ) : (mkCommandResult s dth g l (some c)).cooldown = some (round2 c) := by
  simp only [mkCommandResult]
  split
  · rename_i h0
    rw [h0, round2_zero]
  · rfl

theorem beg_cooldown (d : String) : (Parser.beg d).cooldown = none := rfl

theorem search_cooldown (d : String) : (Parser.search d).cooldown = none := rfl

theorem common1_cooldown (d : String) : (Parser.common1 d).cooldown = none := rfl

theorem crime_cooldown (d : String) : (Parser.crime d).cooldown = none := rfl

theorem cooldown_eval (d : String) (now : ℚ) (ts : Nat)
    (hts : Parser.cooldownTs d = some ts) :
    Parser.cooldown d now =
      some (mkCommandResult false none (some []) (some []) (some ((ts : ℚ) - now))) := by
  simp only [Parser.cooldown, hts]

theorem round2_nonneg (q : ℚ) (h : 0 ≤ q) : 0 ≤ round2 q := by
  unfold round2
  apply div_nonneg _ (by norm_num)
  have h2 : (0 : ℤ) ≤ round (100 * q) := by
    rw [round_eq]
    apply Int.le_floor.mpr
    push_cast
    linarith
  exact_mod_cast h2

theorem begSuccessAux (gc : Option Nat) (gi : Option (List Char))
    (h : ((if truthyNat gc then [(GainKey.coins, GainVal.num (gc.getD 0))] else []) ++
          (if truthyStr gi then [(GainKey.items, GainVal.items [(1, gi)])] else [])) ≠
        ([] : GainMap)) :
    (gc.isSome || gi.isSome) = true := by
  cases gc <;> cases gi <;> simp_all [truthyNat, truthyStr]

/-! ### Claim theorems -/

/-- Claim C1: on the input text `"You went out to beg and got **⏣ 150**!"`
the `beg` extractor returns a `CommandResult` with `success = true` and
`gain = {"coins": 150}` (and no item, no death, no cooldown). -/
theorem c1_beg_round_trip :
    Parser.beg "You went out to beg and got **⏣ 150**!" =
      ⟨true, none, some [(GainKey.coins, GainVal.num 150)], some [], none⟩ := by
  decide

/-- Claim C2, evaluation at the failing input: on
`"**<a:coin:123> Useless Trash**"` (no coin amount present) the `beg`
extractor records the item name WITH the raw custom-emoji tag still in
it, because the stripping statement in that branch reads the undefined
local `item` and the resulting exception is swallowed.  This contradicts
the claim (and the spec), which say the immediately-preceding emoji tag
is always stripped from the item name; the spec itself flags this branch
as a defect in the source (`crime`, whose strip branch is written
correctly, returns `"Useless Trash"` on the corresponding input). -/
theorem c2_beg_emoji_leak :
    Parser.beg "**<a:coin:123> Useless Trash**" =
      ⟨true, none,
        some [(GainKey.items, GainVal.items [(1, some "<a:coin:123> Useless Trash".toList)])],
        some [], none⟩ := by
  decide

/-- Claim C3, counterexample: on `"****"` the `beg` extractor returns
`success = true` with EMPTY gain and loss — the empty bold span is found
(so `gained_item is not None` makes `success` true) but, being falsy, it
is never written into `gain`.  This refutes "success=true if and only if
some gain or loss was extracted". -/
theorem c3_counterexample :
    Parser.beg "****" = ⟨true, none, some [], some [], none⟩ := by decide

/-- Claim C3 (amended): for the `beg` extractor, a non-empty extracted
gain map does imply `success = true`; the converse fails (see the
counterexample). -/
theorem c3_beg_nonempty_gain_success (d : String)
    (h : (Parser.beg d).gain ≠ some []) : (Parser.beg d).success = true := by
  simp only [Parser.beg, mkCommandResult_gain, mkCommandResult_success] at h ⊢
  exact begSuccessAux _ _ (fun hh => h (congrArg some hh))

/-- Witness for C3: a concrete input with non-empty gain on which the
amended theorem applies. -/
theorem c3_witness :
    (Parser.beg "i beg **⏣ 5**").gain ≠ some [] ∧
      (Parser.beg "i beg **⏣ 5**").success = true :=
  ⟨by decide, c3_beg_nonempty_gain_success "i beg **⏣ 5**" (by decide)⟩

/-- Claim C4, counterexample: on the text `"bought and paid"` (both
confirmation phrases present but no second bold span) `Parser.buy`
raises an uncaught `IndexError` — modelled as `none` — instead of
returning a `CommandResult`.  This refutes "never raises an exception
... in particular this holds for Parser.buy and Parser.sell on every
text". -/
theorem c4_counterexample : Parser.buy "bought and paid" "Apple" 1 = none := by decide

/-- Claim C4 (amended): when `buy`/`sell` cannot find their
confirmation-phrase pair (their primary signal), they return
`success = false` with `None` gain and loss and do not raise; raising is
only possible when the phrases are present but the bold-span price is
missing. -/
theorem c4_miss_returns_failure :
    ∀ (d i : String) (q : Nat),
      (¬(containsSub "bought".toList d.toList = true ∧
          containsSub "and paid".toList d.toList = true) →
        Parser.buy d i q = some ⟨false, none, none, none, none⟩) ∧
      (¬(containsSub "sold".toList d.toList = true ∧
          containsSub "and got paid".toList d.toList = true) →
        Parser.sell d i q = some ⟨false, none, none, none, none⟩) := by
  intro d i q
  constructor
  · intro h
    simp [Parser.buy, mkCommandResult]
    intro h1 h2
    simp_all
  · intro h
    simp [Parser.sell, mkCommandResult]
    intro h1 h2
    simp_all

/-- Witness for C4: the amended theorem applied to the phrase-free text
`"hello"`. -/
theorem c4_witness :
    Parser.buy "hello" "Apple" 1 = some ⟨false, none, none, none, none⟩ ∧
      Parser.sell "hello" "Apple" 1 = some ⟨false, none, none, none, none⟩ :=
  ⟨(c4_miss_returns_failure "hello" "Apple" 1).1 (by decide),
    (c4_miss_returns_failure "hello" "Apple" 1).2 (by decide)⟩

/-- Claim C5: every `CommandResult` the parsing engine produces with a
non-null cooldown has `success = false` and empty gain and loss
mappings (only `Parser.cooldown` ever sets the cooldown field, and it
always passes `success = False` and empty dicts). -/
theorem c5_cooldown_excludes_outcome (r : CommandResult) (hp : EngineOutput r)
    (hc : r.cooldown ≠ none) :
    r.success = false ∧ r.gain = some [] ∧ r.loss = some [] := by
  rcases hp with ⟨d, hd⟩ | ⟨d, hd⟩ | ⟨d, hd⟩ | ⟨d, hd⟩ | ⟨d, hd⟩ |
    ⟨d, i, q, hd⟩ | ⟨d, i, q, hd⟩ | ⟨d, now, hd⟩
  · rw [← hd] at hc
    exact absurd (beg_cooldown d) hc
  · rw [← hd] at hc
    exact absurd (search_cooldown d) hc
  · rw [← hd] at hc
    exact absurd (common1_cooldown d) hc
  · rw [← hd] at hc
    exact absurd (crime_cooldown d) hc
  · simp only [Parser.postmemes] at hd
    split at hd
    · split at hd
      · exact absurd hd (by simp)
      · obtain rfl := Option.some.inj hd
        exact absurd (mkCommandResult_cooldown_none _ _ _ _) hc
    · obtain rfl := Option.some.inj hd
      exact absurd (mkCommandResult_cooldown_none _ _ _ _) hc
  · simp only [Parser.buy] at hd
    split at hd
    · split at hd
      · exact absurd hd (by simp)
      · split at hd
        · exact absurd hd (by simp)
        · obtain rfl := Option.some.inj hd
          exact absurd (mkCommandResult_cooldown_none _ _ _ _) hc
    · obtain rfl := Option.some.inj hd
      exact absurd (mkCommandResult_cooldown_none _ _ _ _) hc
  · simp only [Parser.sell] at hd
    split at hd
    · split at hd
      · exact absurd hd (by simp)
      · split at hd
        · exact absurd hd (by simp)
        · obtain rfl := Option.some.inj hd
          exact absurd (mkCommandResult_cooldown_none _ _ _ _) hc
    · obtain rfl := Option.some.inj hd
      exact absurd (mkCommandResult_cooldown_none _ _ _ _) hc
  · simp only [Parser.cooldown] at hd
    split at hd
    · exact absurd hd (by simp)
    · obtain rfl := Option.some.inj hd
      exact ⟨rfl, rfl, rfl⟩

/-- Witness for C5: the theorem applied to the output of
`Parser.cooldown "<t:100:R>"` at `now = 90`. -/
theorem c5_witness :
    (⟨false, none, some [], some [], some 10⟩ : CommandResult).success = false ∧
      (⟨false, none, some [], some [], some 10⟩ : CommandResult).gain = some [] ∧
      (⟨false, none, some [], some [], some 10⟩ : CommandResult).loss = some [] :=
  c5_cooldown_excludes_outcome _
    (Or.inr (Or.inr (Or.inr (Or.inr (Or.inr (Or.inr (Or.inr ⟨"<t:100:R>", 90, by
      have h : Parser.cooldownTs "<t:100:R>" = some 100 := by decide
      simp only [Parser.cooldown, h, mkCommandResult]
      norm_num [round2, round_eq]⟩)))))))
    (by simp)

/-- Claim C6: `Parser.cooldown` extracts the decimal unix timestamp from
the first `<...>` span, and returns `success = false` with cooldown
equal to `(tagged_time - now)` seconds rounded to two decimal places;
in particular, on a cooldown text carrying `<t:1700000000:R>` at a fixed
`now` of epoch 1699999990 the result is `success = false`,
`cooldown = 10.0`. -/
theorem c6_cooldown_extraction :
    (∀ (d : String) (now : ℚ) (ts : Nat) (r : CommandResult),
        Parser.cooldownTs d = some ts → Parser.cooldown d now = some r →
        r.success = false ∧ r.cooldown = some (round2 ((ts : ℚ) - now))) ∧
      Parser.cooldown "Slow down! Your command cooldown is <t:1700000000:R> seconds left"
          1699999990 =
        some ⟨false, none, some [], some [], some 10⟩ := by
  constructor
  · intro d now ts r hts hr
    rw [cooldown_eval d now ts hts] at hr
    obtain rfl := Option.some.inj hr
    exact ⟨rfl, mkCommandResult_cooldown_some _ _ _ _ _⟩
  · have h : Parser.cooldownTs
        "Slow down! Your command cooldown is <t:1700000000:R> seconds left" =
        some 1700000000 := by decide
    simp only [Parser.cooldown, h, mkCommandResult]
    norm_num [round2, round_eq]

/-- Witness for C6: the universally quantified part applied to
`"<t:7:R>"` at `now = 3`. -/
theorem c6_witness :
    (⟨false, none, some [], some [], some 4⟩ : CommandResult).success = false ∧
      (⟨false, none, some [], some [], some 4⟩ : CommandResult).cooldown =
        some (round2 ((7 : ℚ) - 3)) :=
  c6_cooldown_extraction.1 "<t:7:R>" 3 7 _ (by decide) (by
    have h : Parser.cooldownTs "<t:7:R>" = some 7 := by decide
    simp only [Parser.cooldown, h, mkCommandResult]
    norm_num [round2, round_eq])

/-- Claim C7, counterexample: on `"<t:100:R>"` with the current time at
epoch 200 — i.e. a tagged time already in the past — `Parser.cooldown`
returns `cooldown = -100`, a NEGATIVE number of seconds.  This refutes
"the cooldown value is a non-negative number of seconds" for every text
and every current time. -/
theorem c7_counterexample :
    Parser.cooldown "<t:100:R>" 200 = some ⟨false, none, some [], some [], some (-100)⟩ ∧
      ((-100 : ℚ) < 0) := by
  constructor
  · have h : Parser.cooldownTs "<t:100:R>" = some 100 := by decide
    simp only [Parser.cooldown, h, mkCommandResult]
    norm_num [round2, round_eq]
  · norm_num

/-- Claim C7 (amended): whenever `Parser.cooldown` returns a result, the
cooldown it carries is `round2 (tagged_time - now)`, and this value is
non-negative provided the tagged timestamp is not earlier than the
current time. -/
theorem c7_nonneg_when_not_past (d : String) (now : ℚ) (ts : Nat) (r : CommandResult)
    (hts : Parser.cooldownTs d = some ts) (hr : Parser.cooldown d now = some r)
    (hle : now ≤ (ts : ℚ)) :
    r.cooldown = some (round2 ((ts : ℚ) - now)) ∧ 0 ≤ round2 ((ts : ℚ) - now) := by
  rw [cooldown_eval d now ts hts] at hr
  obtain rfl := Option.some.inj hr
  exact ⟨mkCommandResult_cooldown_some _ _ _ _ _, round2_nonneg _ (by linarith)⟩

/-- Witness for C7: the amended theorem applied to `"<t:100:R>"` at
`now = 90`. -/
theorem c7_witness :
    (⟨false, none, some [], some [], some 10⟩ : CommandResult).cooldown =
        some (round2 ((100 : ℚ) - 90)) ∧
      0 ≤ round2 ((100 : ℚ) - 90) :=
  c7_nonneg_when_not_past "<t:100:R>" 90 100 _ (by decide) (by
    have h : Parser.cooldownTs "<t:100:R>" = some 100 := by decide
    simp only [Parser.cooldown, h, mkCommandResult]
    norm_num [round2, round_eq]) (by norm_num)

/-- Claim C8, counterexample: the one-line text
`"**You Received nothing"` does NOT contain the claimed marker
`"**You Received:**"`, yet `postmemes` returns `success = true`,
because the source's success test is the substring check
`"**You Received" in description` — without the trailing colon. -/
theorem c8_counterexample :
    containsSub "**You Received:**".toList "**You Received nothing".toList = false ∧
      Parser.postmemes "**You Received nothing" =
        some ⟨true, none, some [], some [], none⟩ := by
  constructor
  · decide
  · decide

/-- Claim C8 (amended): for every reply text that does not contain
`"**You Received"` (the marker the code actually tests, without the
colon), `postmemes` returns `success = false` with empty gain. -/
theorem c8_no_marker_fails (d : String)
    (h : containsSub "**You Received".toList d.toList = false) :
    Parser.postmemes d = some ⟨false, none, some [], some [], none⟩ := by
  simp [Parser.postmemes, mkCommandResult]
  intro h1
  simp_all

/-- Witness for C8: the amended theorem applied to a marker-free text. -/
theorem c8_witness :
    containsSub "**You Received".toList "better luck next time".toList = false ∧
      Parser.postmemes "better luck next time" =
        some ⟨false, none, some [], some [], none⟩ :=
  ⟨by decide, c8_no_marker_fails "better luck next time" (by decide)⟩

/-- Claim C9, counterexample: clearing a token absent from every
collection is NOT a no-op on the whole cache state — `clear`
unconditionally resets the shared `raw_message_updates` list, here from
`["p"]` to `[]`. -/
theorem c9_counterexample :
    Cache.clear ⟨[], [], [], ["p"], [], []⟩ "t" ≠ ⟨[], [], [], ["p"], [], []⟩ := by
  decide

/-- Claim C9 (amended): clearing a token absent from every per-token
collection leaves all of them unchanged, and only resets the shared
raw update-fragments list to empty. -/
theorem c9_clear_absent_token (c : Cache) (nonce : String)
    (h1 : lookupKey nonce c.nonce_message_map = none)
    (h2 : nonce ∉ c.interaction_create)
    (h3 : nonce ∉ c.interaction_success)
    (h4 : lookupKey nonce c.message_create = none) :
    Cache.clear c nonce = { c with raw_message_updates := [] } := by
  simp only [Cache.clear, h1]
  rw [if_neg h2, if_neg h3]
  rw [h4]
  simp

/-- Witness for C9: the amended theorem applied to a populated cache and
the absent token `"z"`. -/
theorem c9_witness :
    Cache.clear ⟨[("a", 5)], ["b"], ["c"], ["r1", "r2"], [("e", "x")], [(5, "u")]⟩ "z" =
      ⟨[("a", 5)], ["b"], ["c"], [], [("e", "x")], [(5, "u")]⟩ :=
  c9_clear_absent_token ⟨[("a", 5)], ["b"], ["c"], ["r1", "r2"], [("e", "x")], [(5, "u")]⟩ "z"
    (by decide) (by decide) (by decide) (by decide)

/-- Claim C10: on their success paths, `buy` reads the price it reports
as loss from the SECOND bold-span match of the (comma-stripped) reply
text while `sell` reads the price it reports as gain from the FIRST
bold-span match, and in both cases the reported coin amount is the first
integer (maximal digit run) inside that specific bold span; gain/loss
are otherwise built from the caller-supplied item and quantity. -/
theorem c10_buy_sell_span_indices :
    (∀ (d i : String) (q : Nat) (s r : List Char),
        containsSub "bought".toList d.toList = true →
        containsSub "and paid".toList d.toList = true →
        (boldCaptures (stripCommas d.toList)).get? 1 = some s →
        (digitRuns s).get? 0 = some r →
        Parser.buy d i q =
          some ⟨true, none, some [(GainKey.qty q, GainVal.name i.toList)],
            some [(GainKey.coins, GainVal.num (digitsToNat r))], none⟩) ∧
      (∀ (d i : String) (q : Nat) (s r : List Char),
        containsSub "sold".toList d.toList = true →
        containsSub "and got paid".toList d.toList = true →
        (boldCaptures (stripCommas d.toList)).get? 0 = some s →
        (digitRuns s).get? 0 = some r →
        Parser.sell d i q =
          some ⟨true, none, some [(GainKey.coins, GainVal.num (digitsToNat r))],
            some [(GainKey.qty q, GainVal.name i.toList)], none⟩) := by
  constructor
  · intro d i q s r h1 h2 hs hr
    simp at h1 h2 hs hr
    simp [Parser.buy, h1, h2, hs, hr, mkCommandResult]
  · intro d i q s r h1 h2 hs hr
    simp at h1 h2 hs hr
    simp [Parser.sell, h1, h2, hs, hr, mkCommandResult]

/-- Witness for C10: concrete buy and sell texts; the buy price (500)
comes from the second bold span, the sell price (900) from the first. -/
theorem c10_witness :
    Parser.buy "You have bought **1x Apple** and paid **⏣ 500**" "Apple" 1 =
        some ⟨true, none, some [(GainKey.qty 1, GainVal.name "Apple".toList)],
          some [(GainKey.coins, GainVal.num 500)], none⟩ ∧
      Parser.sell "You sold your stuff and got paid **⏣ 900**" "Fish" 3 =
        some ⟨true, none, some [(GainKey.coins, GainVal.num 900)],
          some [(GainKey.qty 3, GainVal.name "Fish".toList)], none⟩ :=
  ⟨c10_buy_sell_span_indices.1 "You have bought **1x Apple** and paid **⏣ 500**" "Apple" 1
      "⏣ 500".toList "500".toList (by decide) (by decide) (by decide) (by decide),
    c10_buy_sell_span_indices.2 "You sold your stuff and got paid **⏣ 900**" "Fish" 3
      "⏣ 900".toList "900".toList (by decide) (by decide) (by decide) (by decide)⟩

end DankCord
